import Mathlib

/- Verification of the matrix-multiplication HTTP server
   (src/concurrency/v2/main.go and the earlier variant src/unnamed/part_000).

   The embedding models:
   - Go's 64-bit two's-complement `int` arithmetic (`wrap64`, `iadd`, `imul`);
   - `multiplyRow` / `multiplyMatricesParallel` as per-row loops parameterised
     by the cancellation signal each row task observes before each column
     (rows write disjoint slices of `result`, so the parallel run is the
     pointwise combination of the independent row computations);
   - `strconv.Atoi` (sign, decimal digits, range clamping to the 64-bit
     bounds with an error, as documented for the Go standard library);
   - the handler's sizing logic of both variants;
   - `net.SplitHostPort` (last-colon split with bracket handling, as in the
     Go standard library) and `extractIP`;
   - the response bodies produced by the handler's `Fprintf` calls;
   - a small interleaving semantics for two concurrent handler executions
     sharing `activeRequests` / `mu`: each job is a sequence of atomic
     events (supersede, register, compute+final-check), and a schedule is
     the list of which job takes the next event. -/

/-! ## Go 64-bit integer arithmetic -/

def wrap64 (x : Int) : Int := (x + 2 ^ 63) % 2 ^ 64 - 2 ^ 63

def iadd (x y : Int) : Int := wrap64 (x + y)

def imul (x y : Int) : Int := wrap64 (x * y)

/-! ## multiplyRow / multiplyMatricesParallel (main.go lines 47-77)

`innerLoopAux` is the inner `for k` loop of `multiplyRow`: it accumulates
`result[row][j] += a[row][k] * b[k][j]` for `k` in `[k, k+fuel)`, starting
from the current cell value `acc`.  `runRowAux` is the outer `for j` loop:
before computing column `j` it checks the row task's cancellation signal
`sig j` and returns immediately when it has triggered.  `multiplyRowGo`
starts from the zero-initialised row.  `multiplyMatricesParallelGo` gives
each row task `i` its own view `sigs i` of the signal (the goroutines may
observe the trigger at different column boundaries). -/

def innerLoopAux (a b : Nat → Nat → Int) (row j : Nat) : Nat → Nat → Int → Int
  | 0, _, acc => acc
  | n + 1, k, acc => innerLoopAux a b row j n (k + 1) (iadd acc (imul (a row k) (b k j)))

def dotGo (a b : Nat → Nat → Int) (row j size : Nat) : Int :=
  innerLoopAux a b row j size 0 0

def runRowAux (sig : Nat → Bool) (a b : Nat → Nat → Int) (row size : Nat) :
    Nat → Nat → (Nat → Int) → Nat → Int
  | 0, _, res => res
  | n + 1, j, res =>
    if sig j then res
    else runRowAux sig a b row size n (j + 1)
      (fun j' => if j' = j then innerLoopAux a b row j size 0 (res j) else res j')

def multiplyRowGo (sig : Nat → Bool) (a b : Nat → Nat → Int) (row size : Nat) : Nat → Int :=
  runRowAux sig a b row size size 0 (fun _ => 0)

def multiplyMatricesParallelGo (sigs : Nat → Nat → Bool) (a b : Nat → Nat → Int)
    (size : Nat) : Nat → Nat → Int :=
  fun i => if i < size then multiplyRowGo (sigs i) a b i size else fun _ => 0

/-- The reference triple-loop product named by the specification: for each
cell, fold `acc += a[i][k] * b[k][j]` over `k < size` in Go `int`
arithmetic, starting from zero. -/
def refProduct (a b : Nat → Nat → Int) (size i j : Nat) : Int :=
  (List.range size).foldl (fun acc k => iadd acc (imul (a i k) (b k j))) 0

/-! ## strconv.Atoi (Go standard library, as used at main.go line 164)

Returns the parsed value and an `ok` flag (`ok = false` is `err != nil`).
Syntax errors yield `(0, false)`; values outside the signed 64-bit range
yield the clamped bound together with an error, exactly as `strconv.Atoi`
(via `ParseInt`) documents. -/

def digitsToNat (l : List Char) : Nat :=
  l.foldl (fun acc c => acc * 10 + (c.toNat - 48)) 0

def atoiCore (neg : Bool) (digits : List Char) : Int × Bool :=
  if digits.isEmpty then (0, false)
  else if digits.all Char.isDigit then
    if neg then
      if (digitsToNat digits : Int) > 2 ^ 63 then (-(2 ^ 63), false)
      else (-(digitsToNat digits : Int), true)
    else
      if (digitsToNat digits : Int) ≥ 2 ^ 63 then (2 ^ 63 - 1, false)
      else ((digitsToNat digits : Int), true)
  else (0, false)

def atoiGo (s : String) : Int × Bool :=
  match s.data with
  | [] => (0, false)
  | '-' :: rest => atoiCore true rest
  | '+' :: rest => atoiCore false rest
  | l => atoiCore false l

/-! ## Handler sizing logic (main.go lines 163-174 and part_000 lines 98-109) -/

inductive SizePath where
  | gate : SizePath
  | compute : Int → SizePath
deriving DecidableEq

/-- The `if err != nil || matrixSize <= 0 { matrixSize = 100 }` default. -/
def defaultSize (r : Int × Bool) : Int :=
  if r.2 = false ∨ r.1 ≤ 0 then 100 else r.1

/-- Sizing of the v2 handler (main.go): the default is applied first, then
the `matrixSize > 2000` gate decides the path. -/
def handlerSizeV2 (param : String) : SizePath :=
  if defaultSize (atoiGo param) > 2000 then SizePath.gate
  else SizePath.compute (defaultSize (atoiGo param))

/-- Sizing of the part_000 variant: the `matrixSize > 2000` gate is checked
on the raw `Atoi` result, and the default is applied only on the compute
branch. -/
def handlerSizeV1 (param : String) : SizePath :=
  if (atoiGo param).1 > 2000 then SizePath.gate
  else SizePath.compute (defaultSize (atoiGo param))

/-! ## Response bodies (the handler's Fprintf calls) -/

/-- Go's `%v` rendering of an `[]int` row body: elements separated by a
single space. -/
def goJoinInts : List Int → String
  | [] => ""
  | [x] => toString x
  | x :: y :: xs => toString x ++ " " ++ goJoinInts (y :: xs)

def renderRowGo (row : List Int) : String := "[" ++ goJoinInts row ++ "]"

/-- The success response: the two header `Fprintf` lines followed by the
`for _, row := range result` loop of `Fprintf(w, "%v\n", row)` writes. -/
def successBody (size : Nat) (ms : Int) (rows : List (List Int)) : String :=
  "Matrix multiplication (size: " ++ toString size ++ ") completed in " ++
    toString ms ++ " milliseconds\n" ++ "Resulting Matrix:\n" ++
    rows.foldl (fun acc row => acc ++ renderRowGo row ++ "\n") ""

/-- The reporting `select` after the multiplier returns (main.go lines
192-202): if the context is done the cancelled message is written,
otherwise the success body. -/
def reportAfterCompute (done : Bool) (size : Nat) (ms : Int) (rows : List (List Int)) : String :=
  if done then "Request was cancelled\n" else successBody size ms rows

/-- Spec-side row rendering: a bracketed, space-separated list of integers,
one line per row. -/
def specRowLine (row : List Int) : String :=
  "[" ++ String.intercalate " " (row.map toString) ++ "]" ++ "\n"

/-- Spec-side success body: header line, `Resulting Matrix:` line, then the
concatenation of one rendered line per row. -/
def specSuccessBody (size : Nat) (ms : Int) (rows : List (List Int)) : String :=
  "Matrix multiplication (size: " ++ toString size ++ ") completed in " ++
    toString ms ++ " milliseconds\n" ++ "Resulting Matrix:\n" ++
    String.join (rows.map specRowLine)

/-- The rows of the multiplier's result matrix, as iterated by
`for _, row := range result`. -/
def matRows (f : Nat → Nat → Int) (size : Nat) : List (List Int) :=
  (List.range size).map (fun i => (List.range size).map (f i))

/-! ## net.SplitHostPort (Go standard library) and extractIP -/

def indexOfChar (c : Char) : List Char → Option Nat
  | [] => none
  | x :: xs => if x = c then some 0 else (indexOfChar c xs).map (· + 1)

def lastIndexOfChar (c : Char) (l : List Char) : Option Nat :=
  match indexOfChar c l.reverse with
  | none => none
  | some i => some (l.length - 1 - i)

/-- Model of `net.SplitHostPort`: split at the last colon, with the
bracketed-host form `[host]:port`, rejecting a missing port, a missing
closing bracket, extra colons in the host, and stray brackets. `none`
stands for a non-nil error. -/
def splitHostPort (s : String) : Option (String × String) :=
  let l := s.data
  match lastIndexOfChar ':' l with
  | none => none
  | some i =>
    match l with
    | '[' :: _ =>
      match indexOfChar ']' l with
      | none => none
      | some e =>
        if e + 1 = l.length then none
        else if e + 1 = i then
          if indexOfChar '[' (l.drop 1) ≠ none then none
          else if indexOfChar ']' (l.drop (e + 1)) ≠ none then none
          else some (⟨(l.drop 1).take (e - 1)⟩, ⟨l.drop (i + 1)⟩)
        else none
    | _ =>
      if indexOfChar ':' (l.take i) ≠ none then none
      else if indexOfChar '[' l ≠ none then none
      else if indexOfChar ']' l ≠ none then none
      else some (⟨l.take i⟩, ⟨l.drop (i + 1)⟩)

/-- `extractIP` (main.go lines 90-95): the host part when `SplitHostPort`
succeeds, the whole address otherwise. -/
def extractIP (remoteAddr : String) : String :=
  match splitHostPort remoteAddr with
  | some (ip, _) => ip
  | none => remoteAddr

/-! ## The cancellation registry and the two-job interleaving model

`activeRequests` is the map `reg`, the set of cancel functions that have
been called is `trig` (context cancellation is monotone: once triggered a
`ctx.Done()` check stays triggered).  Job 1 registers handle 1, job 2
handle 2.  Each handler execution is the sequence of atomic events
  phase 0: `cancelPreviousRequest` under the mutex,
  phase 1: `activeRequests[ip] = cancel` under the mutex,
  phase 2: for a compute-path job, the computation followed by the final
    `select` on `ctx.Done()` (collapsed into the instant of the check);
    for an oversize (gate) job, the blocking `select` that can only fire
    once its own handle has been triggered,
  phase 3: done (the outcome has been written).
A schedule lists which job performs its next event. -/

/-- `cancelPreviousRequest` (main.go lines 80-87): under the lock, if an
entry exists for the key, call its cancel function and delete the entry. -/
def cancelPreviousRequest (reg : String → Option Nat) (trig : Nat → Bool) (ip : String) :
    (String → Option Nat) × (Nat → Bool) :=
  match reg ip with
  | some h => (fun k => if k = ip then none else reg k,
               fun x => if x = h then true else trig x)
  | none => (reg, trig)

inductive Outcome where
  | success : Outcome
  | cancelledMid : Outcome
  | cancelledLarge : Outcome
deriving DecidableEq

/-- The exact response text each outcome produces. -/
def outcomeBody (size : Nat) (ms : Int) (rows : List (List Int)) : Outcome → String
  | Outcome.success => successBody size ms rows
  | Outcome.cancelledMid => "Request was cancelled\n"
  | Outcome.cancelledLarge => "Request was cancelled due to large number\n"

structure JobState where
  phase : Nat
  outcome : Option Outcome
  computed : Bool
deriving DecidableEq

structure SysState where
  reg : String → Option Nat
  trig : Nat → Bool
  j1 : JobState
  j2 : JobState

structure Cfg where
  k1 : String
  k2 : String
  big1 : Bool
  big2 : Bool

/-- One atomic event of a single handler execution. -/
def stepJob (key : String) (hid : Nat) (big : Bool)
    (reg : String → Option Nat) (trig : Nat → Bool) (js : JobState) :
    (String → Option Nat) × (Nat → Bool) × JobState :=
  if js.phase = 0 then
    let p := cancelPreviousRequest reg trig key
    (p.1, p.2, { js with phase := 1 })
  else if js.phase = 1 then
    (fun k => if k = key then some hid else reg k, trig, { js with phase := 2 })
  else if js.phase = 2 then
    if big then
      if trig hid then
        (reg, trig, { phase := 3, outcome := some Outcome.cancelledLarge,
                      computed := js.computed })
      else (reg, trig, js)
    else
      (reg, trig, { phase := 3,
                    outcome := some (if trig hid then Outcome.cancelledMid
                                     else Outcome.success),
                    computed := true })
  else (reg, trig, js)

def step (cfg : Cfg) (st : SysState) (who : Bool) : SysState :=
  if who then
    let r := stepJob cfg.k2 2 cfg.big2 st.reg st.trig st.j2
    { reg := r.1, trig := r.2.1, j1 := st.j1, j2 := r.2.2 }
  else
    let r := stepJob cfg.k1 1 cfg.big1 st.reg st.trig st.j1
    { reg := r.1, trig := r.2.1, j1 := r.2.2, j2 := st.j2 }

def initJob : JobState := ⟨0, none, false⟩

def initState : SysState := ⟨fun _ => none, fun _ => false, initJob, initJob⟩

def runFrom (cfg : Cfg) (st : SysState) (sched : List Bool) : SysState :=
  sched.foldl (step cfg) st

def run (cfg : Cfg) (sched : List Bool) : SysState :=
  runFrom cfg initState sched

/-- Both jobs from the same client key, both on the compute path. -/
def cfgSame : Cfg := ⟨"k", "k", false, false⟩

/-- Same key; job 1 on the compute path, job 2 oversized (gate path). -/
def cfgBig2 : Cfg := ⟨"k", "k", false, true⟩
/-- Invariant of runs in which job 2 has not yet taken a step, for a
configuration where both jobs use key "k" and job 1 is on the compute
path: job 1's entry appears in the registry exactly from its register
event on, nothing has been triggered, and job 1 can only finish with
success. -/
def quietInv (st : SysState) : Prop :=
  st.j2.phase = 0 →
    (st.j2 = initJob ∧ (∀ x, st.trig x = false) ∧
     st.reg "k" = (if 2 ≤ st.j1.phase then some 1 else none) ∧
     st.j1.outcome = (if st.j1.phase = 3 then some Outcome.success else none))

/-- Invariant after job 1's handle has been triggered while job 1 was still
computing (phase 2): from then on job 1 either is still at phase 2 with the
trigger pending, or has finished with the cancelled outcome. -/
def capturedInv (st : SysState) : Prop :=
  (st.j1.phase = 2 ∧ st.trig 1 = true ∧ st.j1.outcome = none) ∨
  (st.j1.phase = 3 ∧ st.j1.outcome = some Outcome.cancelledMid)

/-- Invariant for key isolation: with distinct keys, each job's entry is
its own, nothing is ever triggered, and no cancellation outcome can be
produced. -/
def isoInv (k1 k2 : String) (st : SysState) : Prop :=
  st.trig 1 = false ∧ st.trig 2 = false ∧
  st.reg k1 = (if 2 ≤ st.j1.phase then some 1 else none) ∧
  st.reg k2 = (if 2 ≤ st.j2.phase then some 2 else none) ∧
  (∀ o, st.j1.outcome = some o → o = Outcome.success) ∧
  (∀ o, st.j2.outcome = some o → o = Outcome.success)

/-- Invariant of an oversized job 2 (key "k") stepping alone after any
prior activity of job 1: its own handle is never triggered, so it stays
blocked in the gate `select` with no outcome. -/
def oversizeWaitInv (st : SysState) : Prop :=
  st.j2.outcome = none ∧ st.j2.phase ≤ 2 ∧ st.trig 2 = false ∧
  (st.j2.phase = 0 → st.reg "k" ≠ some 2)


/-! ## Lemmas about the multiplier -/

theorem innerLoopAux_eq_foldl (a b : Nat → Nat → Int) (row j : Nat) :
    ∀ (n k : Nat) (acc : Int),
      innerLoopAux a b row j n k acc =
        (List.range' k n).foldl (fun acc t => iadd acc (imul (a row t) (b t j))) acc := by
  intro n
  induction n with
  | zero => intro k acc; rfl
  | succ n ih =>
    intro k acc
    show innerLoopAux a b row j n (k + 1) (iadd acc (imul (a row k) (b k j))) = _
    rw [ih]
    rfl

theorem dotGo_eq_refProduct (a b : Nat → Nat → Int) (i j size : Nat) :
    dotGo a b i j size = refProduct a b size i j := by
  rw [dotGo, refProduct, innerLoopAux_eq_foldl, List.range_eq_range']

theorem runRowAux_cells (sig : Nat → Bool) (a b : Nat → Nat → Int) (row size : Nat) :
    ∀ (n j : Nat) (res : Nat → Int) (j' : Nat),
      runRowAux sig a b row size n j res j' =
        if j ≤ j' ∧ j' < j + n ∧ (∀ t, t ≤ j' → j ≤ t → sig t = false)
        then innerLoopAux a b row j' size 0 (res j')
        else res j' := by
  intro n
  induction n with
  | zero =>
    intro j res j'
    show res j' = _
    rw [if_neg]
    rintro ⟨h1, h2, -⟩
    omega
  | succ n ih =>
    intro j res j'
    simp only [runRowAux]
    by_cases hs : sig j = true
    · rw [if_pos hs, if_neg]
      rintro ⟨h1, -, h3⟩
      have h := h3 j h1 le_rfl
      rw [hs] at h
      simp at h
    · have hsf : sig j = false := by revert hs; cases sig j <;> simp
      rw [if_neg hs, ih]
      by_cases hj : j' = j
      · have hnot : ¬(j + 1 ≤ j' ∧ j' < j + 1 + n ∧ ∀ t, t ≤ j' → j + 1 ≤ t → sig t = false) := by
          rintro ⟨h1, -, -⟩
          omega
        have hcond : j ≤ j' ∧ j' < j + (n + 1) ∧ ∀ t, t ≤ j' → j ≤ t → sig t = false := by
          refine ⟨by omega, by omega, ?_⟩
          intro t h1 h2
          have ht : t = j := by omega
          rw [ht, hsf]
        rw [if_neg hnot, if_pos hcond]
        simp [hj]
      · by_cases hc : j ≤ j' ∧ j' < j + (n + 1) ∧ ∀ t, t ≤ j' → j ≤ t → sig t = false
        · obtain ⟨h1, h2, h3⟩ := hc
          have hcond : j + 1 ≤ j' ∧ j' < j + 1 + n ∧ ∀ t, t ≤ j' → j + 1 ≤ t → sig t = false :=
            ⟨by omega, by omega, fun t ht1 ht2 => h3 t ht1 (by omega)⟩
          have hcond2 : j ≤ j' ∧ j' < j + (n + 1) ∧ ∀ t, t ≤ j' → j ≤ t → sig t = false :=
            ⟨h1, h2, h3⟩
          rw [if_pos hcond, if_pos hcond2]
          simp [hj]
        · have hnot : ¬(j + 1 ≤ j' ∧ j' < j + 1 + n ∧ ∀ t, t ≤ j' → j + 1 ≤ t → sig t = false) := by
            rintro ⟨hh1, hh2, hh3⟩
            refine hc ⟨by omega, by omega, ?_⟩
            intro t ht1 ht2
            rcases Nat.eq_or_lt_of_le ht2 with h | h
            · rw [← h, hsf]
            · exact hh3 t ht1 h
          rw [if_neg hnot, if_neg hc]
          simp [hj]

/-- C1: for every pair of N×N integer matrices, if the cancellation signal
is never triggered, every cell of the matrix returned by
`multiplyMatricesParallel` equals the reference triple-loop product
R[i][j] = Σ_k A[i][k]·B[k][j] computed in native 64-bit integer arithmetic
with no overflow handling. -/
theorem C1_parallel_product (a b : Nat → Nat → Int) (size i j : Nat)
    (hi : i < size) (hj : j < size) :
    multiplyMatricesParallelGo (fun _ _ => false) a b size i j =
      refProduct a b size i j := by
  show (if i < size then multiplyRowGo (fun _ => false) a b i size else fun _ => 0) j = _
  rw [if_pos hi]
  show runRowAux (fun _ => false) a b i size size 0 (fun _ => 0) j = _
  rw [runRowAux_cells]
  have hcond : 0 ≤ j ∧ j < 0 + size ∧ ∀ t, t ≤ j → 0 ≤ t → (fun _ : Nat => false) t = false :=
    ⟨Nat.zero_le _, by omega, fun t _ _ => rfl⟩
  rw [if_pos hcond]
  exact dotGo_eq_refProduct a b i j size

theorem C1_parallel_product_witness :
    (1 : Nat) < 2 ∧
    multiplyMatricesParallelGo (fun _ _ => false) (fun i j => (i + 2 * j : Int))
        (fun i j => (i - j : Int)) 2 1 1 =
      refProduct (fun i j => (i + 2 * j : Int)) (fun i j => (i - j : Int)) 2 1 1 :=
  ⟨by decide, C1_parallel_product (fun i j => (i + 2 * j : Int))
    (fun i j => (i - j : Int)) 2 1 1 (by decide) (by decide)⟩

/-- C7: each row task checks the cancellation signal once before computing
each column; if the first triggered check is at column `j0`, the cells of
columns before `j0` hold their fully computed dot products and every
not-yet-computed cell of the row keeps its zero-initialised default. -/
theorem C7_row_cancel (sig : Nat → Bool) (a b : Nat → Nat → Int) (row size j0 : Nat)
    (hlow : ∀ t, t < j0 → sig t = false) (hhit : sig j0 = true) (_hj0 : j0 < size)
    (j : Nat) (hj : j < size) :
    multiplyRowGo sig a b row size j =
      if j < j0 then refProduct a b size row j else 0 := by
  show runRowAux sig a b row size size 0 (fun _ => 0) j = _
  rw [runRowAux_cells]
  by_cases h : j < j0
  · have hcond : 0 ≤ j ∧ j < 0 + size ∧ ∀ t, t ≤ j → 0 ≤ t → sig t = false :=
      ⟨Nat.zero_le _, by omega, fun t ht _ => hlow t (by omega)⟩
    rw [if_pos hcond, if_pos h]
    exact dotGo_eq_refProduct a b row j size
  · have hnot : ¬(0 ≤ j ∧ j < 0 + size ∧ ∀ t, t ≤ j → 0 ≤ t → sig t = false) := by
      rintro ⟨-, -, h3⟩
      have hx := h3 j0 (by omega) (Nat.zero_le _)
      rw [hhit] at hx
      simp at hx
    rw [if_neg hnot, if_neg h]

theorem C7_row_cancel_witness :
    (∀ t, t < 1 → (fun u => decide (1 ≤ u)) t = false) ∧
    (fun u => decide (1 ≤ u)) 1 = true ∧ (1 : Nat) < 3 ∧
    multiplyRowGo (fun u => decide (1 ≤ u)) (fun _ _ => 2) (fun _ _ => 3) 0 3 0 =
      refProduct (fun _ _ => 2) (fun _ _ => 3) 3 0 0 ∧
    multiplyRowGo (fun u => decide (1 ≤ u)) (fun _ _ => 2) (fun _ _ => 3) 0 3 2 = 0 := by
  refine ⟨by decide, by decide, by decide, ?_, ?_⟩
  · have h := C7_row_cancel (fun u => decide (1 ≤ u)) (fun _ _ => 2) (fun _ _ => 3) 0 3 1
      (by decide) (by decide) (by decide) 0 (by decide)
    simpa using h
  · have h := C7_row_cancel (fun u => decide (1 ≤ u)) (fun _ _ => 2) (fun _ _ => 3) 0 3 1
      (by decide) (by decide) (by decide) 2 (by decide)
    simpa using h

/-! ## Lemmas about the response bodies -/

theorem intercalate_go_acc (s : String) :
    ∀ (xs : List String) (acc : String),
      String.intercalate.go acc s xs =
        acc ++ xs.foldr (fun a r => s ++ a ++ r) "" := by
  intro xs
  induction xs with
  | nil => intro acc; simp [String.intercalate.go]
  | cons a as ih =>
    intro acc
    show String.intercalate.go (acc ++ s ++ a) s as = _
    rw [ih]
    simp [String.append_assoc]

theorem goJoinInts_eq_intercalate :
    ∀ row : List Int, goJoinInts row = String.intercalate " " (row.map toString)
  | [] => rfl
  | [x] => by
    show toString x = String.intercalate.go (toString x) " " []
    simp [String.intercalate.go]
  | x :: y :: xs => by
    have ih := goJoinInts_eq_intercalate (y :: xs)
    show toString x ++ " " ++ goJoinInts (y :: xs) = String.intercalate.go (toString x) " " _
    rw [ih, intercalate_go_acc]
    show _ = toString x ++ List.foldr _ "" (toString y :: List.map toString xs)
    show _ = toString x ++ (" " ++ toString y ++ List.foldr _ "" (List.map toString xs))
    rw [show String.intercalate " " (List.map toString (y :: xs)) =
          String.intercalate.go (toString y) " " (List.map toString xs) from rfl,
        intercalate_go_acc]
    simp [String.append_assoc]

theorem join_foldl_acc :
    ∀ (l : List String) (acc : String),
      List.foldl (fun r s => r ++ s) acc l = acc ++ String.join l := by
  intro l
  induction l with
  | nil => intro acc; simp [String.join]
  | cons a as ih =>
    intro acc
    show List.foldl _ (acc ++ a) as = _
    rw [ih]
    show _ = acc ++ List.foldl _ ("" ++ a) as
    rw [ih]
    simp [String.append_assoc]

theorem foldl_rows_append (g : List Int → String) :
    ∀ (rows : List (List Int)) (acc : String),
      rows.foldl (fun acc row => acc ++ g row ++ "\n") acc =
        acc ++ String.join (rows.map (fun row => g row ++ "\n")) := by
  intro rows
  induction rows with
  | nil => intro acc; simp [String.join]
  | cons a as ih =>
    intro acc
    show as.foldl _ (acc ++ g a ++ "\n") = _
    rw [ih]
    show _ = acc ++ String.join ((g a ++ "\n") :: as.map _)
    rw [show String.join ((g a ++ "\n") :: as.map (fun row => g row ++ "\n")) =
          List.foldl (fun r s => r ++ s) ("" ++ (g a ++ "\n")) (as.map (fun row => g row ++ "\n"))
        from rfl,
        join_foldl_acc]
    simp [String.append_assoc]

theorem renderRow_line_eq (row : List Int) :
    renderRowGo row ++ "\n" = specRowLine row := by
  show ("[" ++ goJoinInts row ++ "]") ++ "\n" = _
  rw [goJoinInts_eq_intercalate]
  rfl

/-- C8: for a job on the compute path, if the cancellation signal has
triggered by the time the multiplier returns, the reporting `select`
writes exactly "Request was cancelled\n" — no header line and no row
lines — regardless of the result rows that were computed internally. -/
theorem C8_cancelled_report (size : Nat) (ms : Int) (rows : List (List Int)) :
    reportAfterCompute true size ms rows = "Request was cancelled\n" ∧
    outcomeBody size ms rows Outcome.cancelledMid = "Request was cancelled\n" ∧
    reportAfterCompute false size ms rows = successBody size ms rows :=
  ⟨rfl, rfl, rfl⟩

/-- C9: the success response is exactly the header line
"Matrix multiplication (size: N) completed in ms milliseconds\n", the line
"Resulting Matrix:\n", and one line per result row, each rendered as a
bracketed, space-separated list of integers; the result of a size-N
multiplication contributes exactly N row lines. -/
theorem C9_success_body (size : Nat) (ms : Int) (rows : List (List Int)) (f : Nat → Nat → Int) :
    successBody size ms rows = specSuccessBody size ms rows ∧
    (matRows f size).length = size := by
  constructor
  · show _ ++ rows.foldl (fun acc row => acc ++ renderRowGo row ++ "\n") "" = _
    rw [foldl_rows_append renderRowGo rows ""]
    have hmap : rows.map (fun row => renderRowGo row ++ "\n") = rows.map specRowLine :=
      List.map_congr_left (fun row _ => renderRow_line_eq row)
    rw [hmap]
    show _ ++ ("" ++ _) = _
    rw [String.ext (by simp : ("" ++ String.join (rows.map specRowLine)).data =
          (String.join (rows.map specRowLine)).data)]
    rfl
  · simp [matRows]

/-- C10: `extractIP` returns the host part whenever the input splits into
host and port, returns the whole input unchanged when the split fails (an
address with no port), and never fails or produces an empty key when the
host part of the input is non-empty. -/
theorem C10_extractIP :
    (∀ s h p, splitHostPort s = some (h, p) → extractIP s = h) ∧
    (∀ s, splitHostPort s = none → extractIP s = s) ∧
    (∀ s h p, splitHostPort s = some (h, p) → h ≠ "" → extractIP s ≠ "") ∧
    (∀ s, s ≠ "" → splitHostPort s = none → extractIP s ≠ "") := by
  refine ⟨?_, ?_, ?_, ?_⟩
  · intro s h p hsp
    simp [extractIP, hsp]
  · intro s hsp
    simp [extractIP, hsp]
  · intro s h p hsp hne
    simp [extractIP, hsp]
    exact hne
  · intro s hne hsp
    simp [extractIP, hsp]
    exact hne

theorem C10_extractIP_witness :
    splitHostPort "1.2.3.4:8080" = some ("1.2.3.4", "8080") ∧
    extractIP "1.2.3.4:8080" = "1.2.3.4" ∧
    splitHostPort "localhost" = none ∧
    extractIP "localhost" = "localhost" ∧
    extractIP "localhost" ≠ "" :=
  ⟨by decide, C10_extractIP.1 "1.2.3.4:8080" "1.2.3.4" "8080" (by decide),
   by decide, C10_extractIP.2.1 "localhost" (by decide),
   C10_extractIP.2.2.2 "localhost" (by decide) (by decide)⟩

/-- C5 counterexample: the size parameter "10000000000000000000" fails
integer parsing (Go's Atoi reports a range error and returns the clamped
64-bit maximum), yet the part_000 handler routes it into the oversize-gate
path instead of resolving it to N = 100. -/
theorem C5_counterexample :
    (atoiGo "10000000000000000000").2 = false ∧
    handlerSizeV1 "10000000000000000000" = SizePath.gate ∧
    handlerSizeV1 "10000000000000000000" ≠ SizePath.compute 100 :=
  ⟨by decide, by decide, by decide⟩

/-- C5 (amended): parsing always precedes the gate; in the v2 handler any
invalid or non-positive size parameter resolves to N = 100 and never
reaches the oversize-gate path, while in the part_000 variant the default
is applied after the gate, so an invalid parameter still resolves to
N = 100 exactly when Atoi's returned value is at most 2000, and is routed
into the oversize-gate path when the returned (range-clamped) value
exceeds 2000. -/
theorem C5_sizing (param : String)
    (h : (atoiGo param).2 = false ∨ (atoiGo param).1 ≤ 0) :
    handlerSizeV2 param = SizePath.compute 100 ∧
    ((atoiGo param).1 ≤ 2000 → handlerSizeV1 param = SizePath.compute 100) ∧
    (2000 < (atoiGo param).1 → handlerSizeV1 param = SizePath.gate) := by
  have hd : defaultSize (atoiGo param) = 100 := by
    unfold defaultSize
    rw [if_pos h]
  refine ⟨?_, ?_, ?_⟩
  · unfold handlerSizeV2
    rw [hd, if_neg (by norm_num)]
  · intro hle
    unfold handlerSizeV1
    rw [if_neg (by omega), hd]
  · intro hgt
    unfold handlerSizeV1
    rw [if_pos hgt]

theorem C5_sizing_witness :
    ((atoiGo "abc").2 = false ∨ (atoiGo "abc").1 ≤ 0) ∧
    handlerSizeV2 "abc" = SizePath.compute 100 ∧
    handlerSizeV1 "abc" = SizePath.compute 100 :=
  ⟨by decide, (C5_sizing "abc" (by decide)).1,
   (C5_sizing "abc" (by decide)).2.1 (by decide)⟩

/-! ## Lemmas about the registry and the interleaving model -/

theorem runFrom_nil (cfg : Cfg) (st : SysState) : runFrom cfg st [] = st := rfl

theorem runFrom_cons (cfg : Cfg) (st : SysState) (b : Bool) (l : List Bool) :
    runFrom cfg st (b :: l) = runFrom cfg (step cfg st b) l := rfl

theorem step_false_j2 (cfg : Cfg) (st : SysState) : (step cfg st false).j2 = st.j2 := rfl

theorem step_true_j1 (cfg : Cfg) (st : SysState) : (step cfg st true).j1 = st.j1 := rfl

theorem step_false_eq (cfg : Cfg) (st : SysState) :
    step cfg st false =
      { reg := (stepJob cfg.k1 1 cfg.big1 st.reg st.trig st.j1).1,
        trig := (stepJob cfg.k1 1 cfg.big1 st.reg st.trig st.j1).2.1,
        j1 := (stepJob cfg.k1 1 cfg.big1 st.reg st.trig st.j1).2.2,
        j2 := st.j2 } := rfl

theorem step_true_eq (cfg : Cfg) (st : SysState) :
    step cfg st true =
      { reg := (stepJob cfg.k2 2 cfg.big2 st.reg st.trig st.j2).1,
        trig := (stepJob cfg.k2 2 cfg.big2 st.reg st.trig st.j2).2.1,
        j1 := st.j1,
        j2 := (stepJob cfg.k2 2 cfg.big2 st.reg st.trig st.j2).2.2 } := rfl

theorem stepJob_phase0 (key : String) (hid : Nat) (big : Bool)
    (reg : String → Option Nat) (trig : Nat → Bool) (js : JobState) (h : js.phase = 0) :
    stepJob key hid big reg trig js =
      ((cancelPreviousRequest reg trig key).1, (cancelPreviousRequest reg trig key).2,
       { js with phase := 1 }) := by
  unfold stepJob
  rw [if_pos h]

theorem stepJob_phase1 (key : String) (hid : Nat) (big : Bool)
    (reg : String → Option Nat) (trig : Nat → Bool) (js : JobState) (h : js.phase = 1) :
    stepJob key hid big reg trig js =
      (fun k => if k = key then some hid else reg k, trig, { js with phase := 2 }) := by
  unfold stepJob
  rw [if_neg (by omega), if_pos h]

theorem stepJob_phase2_small (key : String) (hid : Nat)
    (reg : String → Option Nat) (trig : Nat → Bool) (js : JobState) (h : js.phase = 2) :
    stepJob key hid false reg trig js =
      (reg, trig, ⟨3, some (if trig hid then Outcome.cancelledMid else Outcome.success),
                   true⟩) := by
  unfold stepJob
  rw [if_neg (by omega), if_neg (by omega), if_pos h]
  rfl

theorem stepJob_phase2_big_blocked (key : String) (hid : Nat)
    (reg : String → Option Nat) (trig : Nat → Bool) (js : JobState) (h : js.phase = 2)
    (ht : trig hid = false) :
    stepJob key hid true reg trig js = (reg, trig, js) := by
  unfold stepJob
  rw [if_neg (by omega), if_neg (by omega), if_pos h]
  show (if trig hid then _ else (reg, trig, js)) = (reg, trig, js)
  rw [ht]
  rfl

theorem stepJob_phase2_big_fire (key : String) (hid : Nat)
    (reg : String → Option Nat) (trig : Nat → Bool) (js : JobState) (h : js.phase = 2)
    (ht : trig hid = true) :
    stepJob key hid true reg trig js =
      (reg, trig, ⟨3, some Outcome.cancelledLarge, js.computed⟩) := by
  unfold stepJob
  rw [if_neg (by omega), if_neg (by omega), if_pos h]
  show (if trig hid then _ else _) = _
  rw [ht]
  rfl

theorem stepJob_done (key : String) (hid : Nat) (big : Bool)
    (reg : String → Option Nat) (trig : Nat → Bool) (js : JobState) (h : 3 ≤ js.phase) :
    stepJob key hid big reg trig js = (reg, trig, js) := by
  unfold stepJob
  rw [if_neg (by omega), if_neg (by omega), if_neg (by omega)]

theorem stepJob_phase_ne_zero (key : String) (hid : Nat) (big : Bool)
    (reg : String → Option Nat) (trig : Nat → Bool) (js : JobState) :
    (stepJob key hid big reg trig js).2.2.phase ≠ 0 := by
  rcases Nat.lt_or_ge js.phase 3 with h | h
  · interval_cases hp : js.phase
    · rw [stepJob_phase0 key hid big reg trig js hp]
      simp
    · rw [stepJob_phase1 key hid big reg trig js hp]
      simp
    · cases big
      · rw [stepJob_phase2_small key hid reg trig js hp]
        simp
      · cases ht : trig hid
        · rw [stepJob_phase2_big_blocked key hid reg trig js hp ht]
          simp [hp]
        · rw [stepJob_phase2_big_fire key hid reg trig js hp ht]
          simp
  · rw [stepJob_done key hid big reg trig js h]
    simp
    omega

theorem cancelPrev_trig_mono (reg : String → Option Nat) (trig : Nat → Bool) (ip : String)
    (x : Nat) (h : trig x = true) : (cancelPreviousRequest reg trig ip).2 x = true := by
  unfold cancelPreviousRequest
  rcases hr : reg ip with - | hh
  · exact h
  · show (if x = hh then true else trig x) = true
    by_cases hx : x = hh
    · rw [if_pos hx]
    · rw [if_neg hx]
      exact h

theorem stepJob_trig_mono (key : String) (hid : Nat) (big : Bool)
    (reg : String → Option Nat) (trig : Nat → Bool) (js : JobState)
    (x : Nat) (h : trig x = true) : (stepJob key hid big reg trig js).2.1 x = true := by
  unfold stepJob
  split_ifs <;> first
    | exact h
    | exact cancelPrev_trig_mono reg trig key x h

theorem step_trig_mono (cfg : Cfg) (st : SysState) (b : Bool) (x : Nat)
    (h : st.trig x = true) : (step cfg st b).trig x = true := by
  cases b
  · rw [step_false_eq]
    exact stepJob_trig_mono _ _ _ _ _ _ x h
  · rw [step_true_eq]
    exact stepJob_trig_mono _ _ _ _ _ _ x h

theorem runFrom_inv (cfg : Cfg) (P : SysState → Prop)
    (hstep : ∀ st b, P st → P (step cfg st b)) :
    ∀ (l : List Bool) (st : SysState), P st → P (runFrom cfg st l)
  | [], st, h => h
  | b :: l, st, h => by
    rw [runFrom_cons]
    exact runFrom_inv cfg P hstep l (step cfg st b) (hstep st b h)

theorem runFrom_inv_false (cfg : Cfg) (P : SysState → Prop)
    (hstep : ∀ st, P st → P (step cfg st false)) :
    ∀ (l : List Bool), (∀ b ∈ l, b = false) → ∀ (st : SysState), P st → P (runFrom cfg st l)
  | [], _, st, h => h
  | b :: l, hl, st, h => by
    have hb : b = false := hl b (List.mem_cons_self b l)
    subst hb
    rw [runFrom_cons]
    exact runFrom_inv_false cfg P hstep l (fun x hx => hl x (List.mem_cons_of_mem _ hx))
      (step cfg st false) (hstep st h)

theorem runFrom_inv_true (cfg : Cfg) (P : SysState → Prop)
    (hstep : ∀ st, P st → P (step cfg st true)) :
    ∀ (l : List Bool), (∀ b ∈ l, b = true) → ∀ (st : SysState), P st → P (runFrom cfg st l)
  | [], _, st, h => h
  | b :: l, hl, st, h => by
    have hb : b = true := hl b (List.mem_cons_self b l)
    subst hb
    rw [runFrom_cons]
    exact runFrom_inv_true cfg P hstep l (fun x hx => hl x (List.mem_cons_of_mem _ hx))
      (step cfg st true) (hstep st h)

theorem runFrom_false_j2 (cfg : Cfg) :
    ∀ (l : List Bool), (∀ b ∈ l, b = false) → ∀ (st : SysState),
      (runFrom cfg st l).j2 = st.j2 := by
  intro l hl st
  have := runFrom_inv_false cfg (fun s => s.j2 = st.j2)
    (fun s hs => by show (step cfg s false).j2 = st.j2; rw [step_false_j2]; exact hs) l hl st rfl
  exact this

theorem cancelPrev_none (reg : String → Option Nat) (trig : Nat → Bool) (ip : String)
    (h : reg ip = none) : cancelPreviousRequest reg trig ip = (reg, trig) := by
  unfold cancelPreviousRequest
  rw [h]

theorem cancelPrev_some (reg : String → Option Nat) (trig : Nat → Bool) (ip : String)
    (hh : Nat) (h : reg ip = some hh) :
    cancelPreviousRequest reg trig ip =
      (fun k => if k = ip then none else reg k, fun x => if x = hh then true else trig x) := by
  unfold cancelPreviousRequest
  rw [h]

theorem quietInv_init : quietInv initState := by
  intro _
  refine ⟨rfl, fun x => rfl, ?_, ?_⟩
  · show none = if 2 ≤ initJob.phase then some 1 else none
    rw [if_neg (by simp [initJob])]
  · show none = if initJob.phase = 3 then some Outcome.success else none
    rw [if_neg (by simp [initJob])]

theorem quietInv_step (cfg : Cfg) (hk1 : cfg.k1 = "k") (hb1 : cfg.big1 = false)
    (st : SysState) (b : Bool) (hq : quietInv st) : quietInv (step cfg st b) := by
  cases b
  · intro hpost
    have h0 : st.j2.phase = 0 := by rw [step_false_j2] at hpost; exact hpost
    obtain ⟨hj2, htrig, hreg, hout⟩ := hq h0
    rw [step_false_eq]
    by_cases hp0 : st.j1.phase = 0
    · have hregk : st.reg "k" = none := by rw [hreg, if_neg (by omega)]
      rw [stepJob_phase0 _ _ _ _ _ _ hp0, hk1, cancelPrev_none _ _ _ hregk]
      refine ⟨hj2, htrig, ?_, ?_⟩
      · show st.reg "k" = if (2 : Nat) ≤ 1 then some 1 else none
        rw [hregk, if_neg (by omega)]
      · show st.j1.outcome = if (1 : Nat) = 3 then some Outcome.success else none
        rw [hout, hp0, if_neg (by omega), if_neg (by omega)]
    · by_cases hp1 : st.j1.phase = 1
      · rw [stepJob_phase1 _ _ _ _ _ _ hp1, hk1]
        refine ⟨hj2, htrig, ?_, ?_⟩
        · show (if "k" = "k" then some 1 else st.reg "k") =
            if (2 : Nat) ≤ 2 then some 1 else none
          rw [if_pos rfl, if_pos (by omega)]
        · show st.j1.outcome = if (2 : Nat) = 3 then some Outcome.success else none
          rw [hout, hp1, if_neg (by omega), if_neg (by omega)]
      · by_cases hp2 : st.j1.phase = 2
        · rw [hb1, stepJob_phase2_small _ _ _ _ _ hp2]
          refine ⟨hj2, htrig, ?_, ?_⟩
          · show st.reg "k" = if (2 : Nat) ≤ 3 then some 1 else none
            rw [hreg, hp2, if_pos (by omega), if_pos (by omega)]
          · show some (if st.trig 1 then Outcome.cancelledMid else Outcome.success) =
              if (3 : Nat) = 3 then some Outcome.success else none
            rw [htrig 1, if_pos rfl]
            rfl
        · have hph : 3 ≤ st.j1.phase := by omega
          rw [stepJob_done _ _ _ _ _ _ hph]
          exact ⟨hj2, htrig, hreg, hout⟩
  · intro hpost
    exfalso
    rw [step_true_eq] at hpost
    exact stepJob_phase_ne_zero _ _ _ _ _ _ hpost

theorem quietInv_run (cfg : Cfg) (hk1 : cfg.k1 = "k") (hb1 : cfg.big1 = false)
    (sched : List Bool) : quietInv (run cfg sched) :=
  runFrom_inv cfg quietInv (fun st b h => quietInv_step cfg hk1 hb1 st b h) sched initState
    quietInv_init

theorem capturedInv_step (cfg : Cfg) (hb1 : cfg.big1 = false)
    (st : SysState) (b : Bool) (hc : capturedInv st) : capturedInv (step cfg st b) := by
  cases b
  · rw [step_false_eq]
    rcases hc with ⟨hp, ht, ho⟩ | ⟨hp, ho⟩
    · rw [hb1, stepJob_phase2_small _ _ _ _ _ hp]
      right
      refine ⟨rfl, ?_⟩
      show some (if st.trig 1 then Outcome.cancelledMid else Outcome.success) = _
      rw [ht, if_pos rfl]
    · rw [stepJob_done _ _ _ _ _ _ (by omega)]
      right
      exact ⟨hp, ho⟩
  · rcases hc with ⟨hp, ht, ho⟩ | ⟨hp, ho⟩
    · left
      refine ⟨?_, step_trig_mono cfg st true 1 ht, ?_⟩
      · rw [step_true_j1, hp]
      · rw [step_true_j1, ho]
    · right
      rw [step_true_j1]
      exact ⟨hp, ho⟩

/-- C2 counterexample: both jobs are issued from the same key. In the
schedule J1-supersede, J2-supersede, J2-register, J1-register, J1-check,
J2-check, job 1 is issued first (after one step J1 is at phase 1 while J2
has not started) and J2 arrives before J1 completes (after J2's first
step J1 is still at phase 1), yet both jobs report success: J2's
supersede ran before J1 had registered, so it cancelled nothing, and
J1's register then overwrote J2's registry entry. -/
theorem C2_counterexample :
    (run cfgSame [false]).j1.phase = 1 ∧
    (run cfgSame [false]).j2.phase = 0 ∧
    (run cfgSame [false, true]).j1.phase = 1 ∧
    (run cfgSame [false, true]).j2.phase = 1 ∧
    (run cfgSame [false, true, true, false, false, true]).j1.outcome =
      some Outcome.success ∧
    (run cfgSame [false, true, true, false, false, true]).j2.outcome =
      some Outcome.success :=
  ⟨by decide, by decide, by decide, by decide, by decide, by decide⟩

/-- C2 (amended): for two jobs J1 then J2 issued from the same client key,
if J2's supersede step runs after J1 has registered and before J1's final
signal check, then J1's reported outcome is the cancellation whenever J1
reaches a terminal state, and in no such execution do J1 and J2 both
report success. -/
theorem C2_latest_wins (l1 l2 : List Bool)
    (h1 : (run cfgSame l1).j1.phase = 2)
    (h2 : (run cfgSame l1).j2.phase = 0) :
    ((run cfgSame (l1 ++ true :: l2)).j1.phase = 3 →
      (run cfgSame (l1 ++ true :: l2)).j1.outcome = some Outcome.cancelledMid) ∧
    ¬((run cfgSame (l1 ++ true :: l2)).j1.outcome = some Outcome.success ∧
      (run cfgSame (l1 ++ true :: l2)).j2.outcome = some Outcome.success) := by
  obtain ⟨hj2, htrig, hreg, hout⟩ := quietInv_run cfgSame rfl rfl l1 h2
  have hregk : (run cfgSame l1).reg "k" = some 1 := by
    rw [hreg, if_pos (by omega)]
  have htrig1 : (step cfgSame (run cfgSame l1) true).trig 1 = true := by
    rw [step_true_eq, stepJob_phase0 _ _ _ _ _ _ h2]
    show (cancelPreviousRequest (run cfgSame l1).reg (run cfgSame l1).trig cfgSame.k2).2 1
      = true
    rw [show cfgSame.k2 = "k" from rfl, cancelPrev_some _ _ _ 1 hregk]
    show (if 1 = 1 then true else (run cfgSame l1).trig 1) = true
    rw [if_pos rfl]
  have hc1 : capturedInv (step cfgSame (run cfgSame l1) true) := by
    left
    refine ⟨?_, htrig1, ?_⟩
    · rw [step_true_j1]
      exact h1
    · rw [step_true_j1, hout, h1, if_neg (by omega)]
  have hfin : capturedInv (run cfgSame (l1 ++ true :: l2)) := by
    have happ : run cfgSame (l1 ++ true :: l2) =
        runFrom cfgSame (step cfgSame (run cfgSame l1) true) l2 := by
      show List.foldl (step cfgSame) initState (l1 ++ true :: l2) = _
      rw [List.foldl_append]
      rfl
    rw [happ]
    exact runFrom_inv cfgSame capturedInv
      (fun st b h => capturedInv_step cfgSame rfl st b h) l2 _ hc1
  constructor
  · intro hph3
    rcases hfin with ⟨hp, -, -⟩ | ⟨-, ho⟩
    · omega
    · exact ho
  · rintro ⟨hs1, -⟩
    rcases hfin with ⟨-, -, ho⟩ | ⟨-, ho⟩
    · rw [ho] at hs1
      exact Option.noConfusion hs1
    · rw [ho] at hs1
      exact Outcome.noConfusion (Option.some.inj hs1)

theorem C2_latest_wins_witness :
    (run cfgSame [false, false]).j1.phase = 2 ∧
    (run cfgSame [false, false]).j2.phase = 0 ∧
    ((run cfgSame ([false, false] ++ true :: [false, true])).j1.phase = 3 →
      (run cfgSame ([false, false] ++ true :: [false, true])).j1.outcome =
        some Outcome.cancelledMid) ∧
    ¬((run cfgSame ([false, false] ++ true :: [false, true])).j1.outcome =
        some Outcome.success ∧
      (run cfgSame ([false, false] ++ true :: [false, true])).j2.outcome =
        some Outcome.success) :=
  ⟨by decide, by decide,
   (C2_latest_wins [false, false] [false, true] (by decide) (by decide)).1,
   (C2_latest_wins [false, false] [false, true] (by decide) (by decide)).2⟩

/-- C3 counterexample: a single job runs to completion and reports
success, no newer job for its key ever arrives, yet a live entry for its
key (its own untriggered handle) is still in the registry: the handler
neither triggers its own handle nor removes its entry on completion. -/
theorem C3_counterexample :
    (run cfgSame [false, false, false]).j1.phase = 3 ∧
    (run cfgSame [false, false, false]).j1.outcome = some Outcome.success ∧
    (run cfgSame [false, false, false]).j2.phase = 0 ∧
    (run cfgSame [false, false, false]).reg "k" = some 1 ∧
    (run cfgSame [false, false, false]).trig 1 = false :=
  ⟨by decide, by decide, by decide, by decide, by decide⟩

/-- C3 (amended): registry entries are removed only by a superseding job's
supersede step, never by a job's own completion or cleanup: in any run in
which only job 1 takes steps, once job 1 is terminal it has reported
success and its entry — with its handle untriggered — is still live in
the registry. -/
theorem C3_registry_cleanup (l : List Bool) (hl : ∀ b ∈ l, b = false)
    (hdone : (run cfgSame l).j1.phase = 3) :
    (run cfgSame l).j1.outcome = some Outcome.success ∧
    (run cfgSame l).reg "k" = some 1 ∧
    (run cfgSame l).trig 1 = false := by
  have h0 : (run cfgSame l).j2.phase = 0 := by
    have hj2 : (run cfgSame l).j2 = initState.j2 := runFrom_false_j2 cfgSame l hl initState
    rw [hj2]
    rfl
  obtain ⟨-, htrig, hreg, hout⟩ := quietInv_run cfgSame rfl rfl l h0
  refine ⟨?_, ?_, htrig 1⟩
  · rw [hout, if_pos hdone]
  · rw [hreg, if_pos (by omega)]

theorem C3_registry_cleanup_witness :
    (∀ b ∈ [false, false, false], b = false) ∧
    (run cfgSame [false, false, false]).j1.phase = 3 ∧
    (run cfgSame [false, false, false]).j1.outcome = some Outcome.success ∧
    (run cfgSame [false, false, false]).trig 1 = false :=
  ⟨by decide, by decide,
   (C3_registry_cleanup [false, false, false] (by decide) (by decide)).1,
   (C3_registry_cleanup [false, false, false] (by decide) (by decide)).2.2⟩

theorem bigJob_never_computes (sched : List Bool) :
    (run cfgBig2 sched).j2.computed = false := by
  refine runFrom_inv cfgBig2 (fun st => st.j2.computed = false) ?_ sched initState rfl
  intro st b h
  cases b
  · show (step cfgBig2 st false).j2.computed = false
    rw [step_false_j2]
    exact h
  · show (step cfgBig2 st true).j2.computed = false
    rw [step_true_eq]
    show (stepJob "k" 2 true st.reg st.trig st.j2).2.2.computed = false
    by_cases hp0 : st.j2.phase = 0
    · rw [stepJob_phase0 _ _ _ _ _ _ hp0]
      exact h
    · by_cases hp1 : st.j2.phase = 1
      · rw [stepJob_phase1 _ _ _ _ _ _ hp1]
        exact h
      · by_cases hp2 : st.j2.phase = 2
        · cases ht : st.trig 2
          · rw [stepJob_phase2_big_blocked _ _ _ _ _ hp2 ht]
            exact h
          · rw [stepJob_phase2_big_fire _ _ _ _ _ hp2 ht]
            exact h
        · rw [stepJob_done _ _ _ _ _ _ (by omega)]
          exact h

theorem bigJob_gate_outcome (sched : List Bool) :
    (run cfgBig2 sched).j2.phase = 3 →
    (run cfgBig2 sched).j2.outcome = some Outcome.cancelledLarge := by
  refine runFrom_inv cfgBig2
    (fun st => st.j2.phase = 3 → st.j2.outcome = some Outcome.cancelledLarge) ?_
    sched initState (fun h => absurd h (by decide))
  intro st b h
  cases b
  · show (step cfgBig2 st false).j2.phase = 3 → _
    rw [step_false_j2]
    exact fun hq => h hq
  · show (step cfgBig2 st true).j2.phase = 3 → _
    rw [step_true_eq]
    show (stepJob "k" 2 true st.reg st.trig st.j2).2.2.phase = 3 →
      (stepJob "k" 2 true st.reg st.trig st.j2).2.2.outcome = some Outcome.cancelledLarge
    by_cases hp0 : st.j2.phase = 0
    · rw [stepJob_phase0 _ _ _ _ _ _ hp0]
      intro hq
      have hq1 : (1 : Nat) = 3 := hq
      omega
    · by_cases hp1 : st.j2.phase = 1
      · rw [stepJob_phase1 _ _ _ _ _ _ hp1]
        intro hq
        have hq1 : (2 : Nat) = 3 := hq
        omega
      · by_cases hp2 : st.j2.phase = 2
        · cases ht : st.trig 2
          · rw [stepJob_phase2_big_blocked _ _ _ _ _ hp2 ht]
            intro hq
            have hq1 : st.j2.phase = 3 := hq
            omega
          · rw [stepJob_phase2_big_fire _ _ _ _ _ hp2 ht]
            intro _
            rfl
        · rw [stepJob_done _ _ _ _ _ _ (by omega)]
          exact fun hq => h hq

theorem oversizeWait_step (st : SysState) (h : oversizeWaitInv st) :
    oversizeWaitInv (step cfgBig2 st true) := by
  obtain ⟨ho, hp, ht, hr⟩ := h
  rw [step_true_eq]
  show oversizeWaitInv
    { reg := (stepJob "k" 2 true st.reg st.trig st.j2).1,
      trig := (stepJob "k" 2 true st.reg st.trig st.j2).2.1,
      j1 := st.j1,
      j2 := (stepJob "k" 2 true st.reg st.trig st.j2).2.2 }
  by_cases hp0 : st.j2.phase = 0
  · rw [stepJob_phase0 _ _ _ _ _ _ hp0]
    refine ⟨ho, by show (1 : Nat) ≤ 2; omega, ?_, ?_⟩
    · show (cancelPreviousRequest st.reg st.trig "k").2 2 = false
      rcases hreg : st.reg "k" with - | hh
      · rw [cancelPrev_none _ _ _ hreg]
        exact ht
      · rw [cancelPrev_some _ _ _ hh hreg]
        show (if 2 = hh then true else st.trig 2) = false
        rw [if_neg ?_, ht]
        intro h2
        exact hr hp0 (by rw [hreg, ← h2])
    · intro hq
      have hq1 : (1 : Nat) = 0 := hq
      omega
  · by_cases hp1 : st.j2.phase = 1
    · rw [stepJob_phase1 _ _ _ _ _ _ hp1]
      refine ⟨ho, by show (2 : Nat) ≤ 2; omega, ht, ?_⟩
      intro hq
      have hq1 : (2 : Nat) = 0 := hq
      omega
    · have hp2 : st.j2.phase = 2 := by omega
      rw [stepJob_phase2_big_blocked _ _ _ _ _ hp2 ht]
      exact ⟨ho, hp, ht, fun hq => absurd (show st.j2.phase = 0 from hq) (by omega)⟩

/-- C4: a request whose size parameter successfully parses to a value
greater than 2000 takes the gate path in both handler variants; on the
gate path the job never invokes the multiplier, its supersede step still
cancels and removes a registered prior job for the same key, its only
possible terminal outcome is the gate cancellation — whose exact message
is "Request was cancelled due to large number\n" — and when no subsequent
request for its key ever arrives it blocks forever and never reaches a
terminal state. -/
theorem C4_oversize_gate :
    (∀ param, (atoiGo param).2 = true → 2000 < (atoiGo param).1 →
      handlerSizeV2 param = SizePath.gate ∧ handlerSizeV1 param = SizePath.gate) ∧
    (∀ sched, (run cfgBig2 sched).j2.computed = false) ∧
    (∀ sched, (run cfgBig2 sched).j2.phase = 3 →
      (run cfgBig2 sched).j2.outcome = some Outcome.cancelledLarge) ∧
    (∀ l1, (∀ b ∈ l1, b = false) → 2 ≤ (run cfgBig2 l1).j1.phase →
      (step cfgBig2 (run cfgBig2 l1) true).trig 1 = true ∧
      (step cfgBig2 (run cfgBig2 l1) true).reg "k" = none) ∧
    (∀ l1 l2, (∀ b ∈ l1, b = false) → (∀ b ∈ l2, b = true) →
      (run cfgBig2 (l1 ++ l2)).j2.phase ≤ 2 ∧
      (run cfgBig2 (l1 ++ l2)).j2.outcome = none) ∧
    (∀ size ms rows, outcomeBody size ms rows Outcome.cancelledLarge =
      "Request was cancelled due to large number\n") := by
  have hquiet : ∀ l1 : List Bool, (∀ b ∈ l1, b = false) →
      (run cfgBig2 l1).j2 = initState.j2 ∧ quietInv (run cfgBig2 l1) := by
    intro l1 hl
    exact ⟨runFrom_false_j2 cfgBig2 l1 hl initState, quietInv_run cfgBig2 rfl rfl l1⟩
  refine ⟨?_, bigJob_never_computes, bigJob_gate_outcome, ?_, ?_, ?_⟩
  · intro param hok hgt
    have hd : defaultSize (atoiGo param) = (atoiGo param).1 := by
      unfold defaultSize
      rw [if_neg ?_]
      rintro (hc | hc)
      · rw [hok] at hc
        exact Bool.noConfusion hc
      · omega
    constructor
    · unfold handlerSizeV2
      rw [hd, if_pos hgt]
    · unfold handlerSizeV1
      rw [if_pos hgt]
  · intro l1 hl hreg2
    obtain ⟨hj2, hq⟩ := hquiet l1 hl
    have h0 : (run cfgBig2 l1).j2.phase = 0 := by rw [hj2]; rfl
    obtain ⟨-, htrig, hreg, -⟩ := hq h0
    have hregk : (run cfgBig2 l1).reg "k" = some 1 := by
      rw [hreg, if_pos hreg2]
    rw [step_true_eq, stepJob_phase0 _ _ _ _ _ _ h0]
    constructor
    · show (cancelPreviousRequest (run cfgBig2 l1).reg (run cfgBig2 l1).trig "k").2 1 = true
      rw [cancelPrev_some _ _ _ 1 hregk]
      show (if 1 = 1 then true else (run cfgBig2 l1).trig 1) = true
      rw [if_pos rfl]
    · show (cancelPreviousRequest (run cfgBig2 l1).reg (run cfgBig2 l1).trig "k").1 "k" = none
      rw [cancelPrev_some _ _ _ 1 hregk]
      show (if "k" = "k" then none else (run cfgBig2 l1).reg "k") = none
      rw [if_pos rfl]
  · intro l1 l2 hl1 hl2
    obtain ⟨hj2, hq⟩ := hquiet l1 hl1
    have h0 : (run cfgBig2 l1).j2.phase = 0 := by rw [hj2]; rfl
    obtain ⟨-, htrig, hreg, -⟩ := hq h0
    have hwait : oversizeWaitInv (run cfgBig2 l1) := by
      refine ⟨by rw [hj2]; rfl, by omega, htrig 2, ?_⟩
      intro _ hc
      rw [hreg] at hc
      by_cases hc2 : 2 ≤ (run cfgBig2 l1).j1.phase
      · rw [if_pos hc2] at hc
        have := Option.some.inj hc
        omega
      · rw [if_neg hc2] at hc
        exact Option.noConfusion hc
    have happ : run cfgBig2 (l1 ++ l2) = runFrom cfgBig2 (run cfgBig2 l1) l2 := by
      show List.foldl (step cfgBig2) initState (l1 ++ l2) = _
      rw [List.foldl_append]
      rfl
    have hfin : oversizeWaitInv (run cfgBig2 (l1 ++ l2)) := by
      rw [happ]
      exact runFrom_inv_true cfgBig2 oversizeWaitInv
        (fun st hst => oversizeWait_step st hst) l2 hl2 (run cfgBig2 l1) hwait
    exact ⟨hfin.2.1, hfin.1⟩
  · intro size ms rows
    rfl

theorem C4_oversize_gate_witness :
    ((atoiGo "2500").2 = true ∧ 2000 < (atoiGo "2500").1 ∧
      handlerSizeV2 "2500" = SizePath.gate) ∧
    (run cfgBig2 [true, true]).j2.computed = false ∧
    (∀ b ∈ [false, false, false], b = false) ∧
    (2 : Nat) ≤ (run cfgBig2 [false, false, false]).j1.phase ∧
    (step cfgBig2 (run cfgBig2 [false, false, false]) true).trig 1 = true ∧
    (run cfgBig2 ([false, false, false] ++ [true, true, true, true])).j2.phase ≤ 2 ∧
    (run cfgBig2 ([false, false, false] ++ [true, true, true, true])).j2.outcome = none ∧
    outcomeBody 5 7 [[1]] Outcome.cancelledLarge =
      "Request was cancelled due to large number\n" :=
  ⟨⟨by decide, by decide, (C4_oversize_gate.1 "2500" (by decide) (by decide)).1⟩,
   C4_oversize_gate.2.1 [true, true],
   by decide, by decide,
   (C4_oversize_gate.2.2.2.1 [false, false, false] (by decide) (by decide)).1,
   (C4_oversize_gate.2.2.2.2.1 [false, false, false] [true, true, true, true]
     (by decide) (by decide)).1,
   (C4_oversize_gate.2.2.2.2.1 [false, false, false] [true, true, true, true]
     (by decide) (by decide)).2,
   C4_oversize_gate.2.2.2.2.2 5 7 [[1]]⟩

theorem isoInv_init (k1 k2 : String) : isoInv k1 k2 initState := by
  refine ⟨rfl, rfl, ?_, ?_, ?_, ?_⟩
  · show (none : Option Nat) = if (2 : Nat) ≤ 0 then some 1 else none
    rw [if_neg (by omega)]
  · show (none : Option Nat) = if (2 : Nat) ≤ 0 then some 2 else none
    rw [if_neg (by omega)]
  · intro o ho
    exact Option.noConfusion ho
  · intro o ho
    exact Option.noConfusion ho

theorem isoInv_step (cfg : Cfg) (hne : cfg.k1 ≠ cfg.k2) (st : SysState) (b : Bool)
    (h : isoInv cfg.k1 cfg.k2 st) : isoInv cfg.k1 cfg.k2 (step cfg st b) := by
  obtain ⟨ht1, ht2, hr1, hr2, ho1, ho2⟩ := h
  cases b
  · rw [step_false_eq]
    by_cases hp0 : st.j1.phase = 0
    · have hregk : st.reg cfg.k1 = none := by rw [hr1, if_neg (by omega)]
      rw [stepJob_phase0 _ _ _ _ _ _ hp0, cancelPrev_none _ _ _ hregk]
      refine ⟨ht1, ht2, ?_, hr2, ho1, ho2⟩
      show st.reg cfg.k1 = if (2 : Nat) ≤ 1 then some 1 else none
      rw [hregk, if_neg (by omega)]
    · by_cases hp1 : st.j1.phase = 1
      · rw [stepJob_phase1 _ _ _ _ _ _ hp1]
        refine ⟨ht1, ht2, ?_, ?_, ho1, ho2⟩
        · show (if cfg.k1 = cfg.k1 then some 1 else st.reg cfg.k1) =
            if (2 : Nat) ≤ 2 then some 1 else none
          rw [if_pos rfl, if_pos (by omega)]
        · show (if cfg.k2 = cfg.k1 then some 1 else st.reg cfg.k2) = _
          rw [if_neg (fun hh => hne hh.symm)]
          exact hr2
      · by_cases hp2 : st.j1.phase = 2
        · cases hb : cfg.big1
          · rw [stepJob_phase2_small _ _ _ _ _ hp2]
            refine ⟨ht1, ht2, ?_, hr2, ?_, ho2⟩
            · show st.reg cfg.k1 = if (2 : Nat) ≤ 3 then some 1 else none
              rw [hr1, hp2, if_pos (by omega), if_pos (by omega)]
            · intro o hoeq
              have hoeq2 : some (if st.trig 1 then Outcome.cancelledMid
                  else Outcome.success) = some o := hoeq
              have h2 := Option.some.inj hoeq2
              rw [ht1, if_neg (by simp)] at h2
              exact h2.symm
          · cases htr : st.trig 1
            · rw [stepJob_phase2_big_blocked _ _ _ _ _ hp2 htr]
              exact ⟨ht1, ht2, hr1, hr2, ho1, ho2⟩
            · rw [ht1] at htr
              exact Bool.noConfusion htr
        · rw [stepJob_done _ _ _ _ _ _ (by omega)]
          exact ⟨ht1, ht2, hr1, hr2, ho1, ho2⟩
  · rw [step_true_eq]
    by_cases hp0 : st.j2.phase = 0
    · have hregk : st.reg cfg.k2 = none := by rw [hr2, if_neg (by omega)]
      rw [stepJob_phase0 _ _ _ _ _ _ hp0, cancelPrev_none _ _ _ hregk]
      refine ⟨ht1, ht2, hr1, ?_, ho1, ho2⟩
      show st.reg cfg.k2 = if (2 : Nat) ≤ 1 then some 2 else none
      rw [hregk, if_neg (by omega)]
    · by_cases hp1 : st.j2.phase = 1
      · rw [stepJob_phase1 _ _ _ _ _ _ hp1]
        refine ⟨ht1, ht2, ?_, ?_, ho1, ho2⟩
        · show (if cfg.k1 = cfg.k2 then some 2 else st.reg cfg.k1) = _
          rw [if_neg hne]
          exact hr1
        · show (if cfg.k2 = cfg.k2 then some 2 else st.reg cfg.k2) =
            if (2 : Nat) ≤ 2 then some 2 else none
          rw [if_pos rfl, if_pos (by omega)]
      · by_cases hp2 : st.j2.phase = 2
        · cases hb : cfg.big2
          · rw [stepJob_phase2_small _ _ _ _ _ hp2]
            refine ⟨ht1, ht2, hr1, ?_, ho1, ?_⟩
            · show st.reg cfg.k2 = if (2 : Nat) ≤ 3 then some 2 else none
              rw [hr2, hp2, if_pos (by omega), if_pos (by omega)]
            · intro o hoeq
              have hoeq2 : some (if st.trig 2 then Outcome.cancelledMid
                  else Outcome.success) = some o := hoeq
              have h2 := Option.some.inj hoeq2
              rw [ht2, if_neg (by simp)] at h2
              exact h2.symm
          · cases htr : st.trig 2
            · rw [stepJob_phase2_big_blocked _ _ _ _ _ hp2 htr]
              exact ⟨ht1, ht2, hr1, hr2, ho1, ho2⟩
            · rw [ht2] at htr
              exact Bool.noConfusion htr
        · rw [stepJob_done _ _ _ _ _ _ (by omega)]
          exact ⟨ht1, ht2, hr1, hr2, ho1, ho2⟩

theorem isoInv_run (k1 k2 : String) (b1 b2 : Bool) (hne : k1 ≠ k2) (sched : List Bool) :
    isoInv k1 k2 (run ⟨k1, k2, b1, b2⟩ sched) :=
  runFrom_inv _ (isoInv k1 k2) (fun st b h => isoInv_step ⟨k1, k2, b1, b2⟩ hne st b h)
    sched initState (isoInv_init k1 k2)

/-- C6: cancelPreviousRequest, run under the registry lock, triggers the
handle and removes the entry for the key exactly when an entry for the key
exists, and is a no-op otherwise; in either case entries of every other
key and the trigger state of every other handle are unchanged, and
consequently jobs from two distinct keys never cancel one another: no run
of the two-job system with distinct keys can produce a cancellation
outcome for either job. -/
theorem C6_supersede_frame :
    (∀ (reg : String → Option Nat) (trig : Nat → Bool) (ip : String) (h : Nat),
      reg ip = some h →
        (cancelPreviousRequest reg trig ip).1 ip = none ∧
        (cancelPreviousRequest reg trig ip).2 h = true ∧
        (∀ k, k ≠ ip → (cancelPreviousRequest reg trig ip).1 k = reg k) ∧
        (∀ x, x ≠ h → (cancelPreviousRequest reg trig ip).2 x = trig x)) ∧
    (∀ (reg : String → Option Nat) (trig : Nat → Bool) (ip : String),
      reg ip = none → cancelPreviousRequest reg trig ip = (reg, trig)) ∧
    (∀ (k1 k2 : String) (b1 b2 : Bool), k1 ≠ k2 → ∀ (sched : List Bool) (o : Outcome),
      ((run ⟨k1, k2, b1, b2⟩ sched).j1.outcome = some o → o = Outcome.success) ∧
      ((run ⟨k1, k2, b1, b2⟩ sched).j2.outcome = some o → o = Outcome.success)) := by
  refine ⟨?_, ?_, ?_⟩
  · intro reg trig ip h hin
    rw [cancelPrev_some _ _ _ h hin]
    refine ⟨?_, ?_, ?_, ?_⟩
    · show (if ip = ip then none else reg ip) = none
      rw [if_pos rfl]
    · show (if h = h then true else trig h) = true
      rw [if_pos rfl]
    · intro k hk
      show (if k = ip then none else reg k) = reg k
      rw [if_neg hk]
    · intro x hx
      show (if x = h then true else trig x) = trig x
      rw [if_neg hx]
  · intro reg trig ip hnone
    exact cancelPrev_none reg trig ip hnone
  · intro k1 k2 b1 b2 hne sched o
    obtain ⟨-, -, -, -, ho1, ho2⟩ := isoInv_run k1 k2 b1 b2 hne sched
    exact ⟨ho1 o, ho2 o⟩

theorem C6_supersede_frame_witness :
    ((fun k => if k = "a" then some (5 : Nat) else none) "a" = some 5) ∧
    (cancelPreviousRequest (fun k => if k = "a" then some (5 : Nat) else none)
        (fun _ => false) "a").1 "a" = none ∧
    (cancelPreviousRequest (fun k => if k = "a" then some (5 : Nat) else none)
        (fun _ => false) "a").2 5 = true ∧
    (cancelPreviousRequest (fun k => if k = "a" then some (5 : Nat) else none)
        (fun _ => false) "a").1 "b" =
      (fun k => if k = "a" then some (5 : Nat) else none) "b" ∧
    (("a" : String) ≠ "b") ∧
    (run ⟨"a", "b", false, false⟩ [false, true, false, true, false, true]).j1.outcome =
      some Outcome.success ∧
    Outcome.success = Outcome.success :=
  ⟨by decide,
   (C6_supersede_frame.1 (fun k => if k = "a" then some (5 : Nat) else none)
     (fun _ => false) "a" 5 (by decide)).1,
   (C6_supersede_frame.1 (fun k => if k = "a" then some (5 : Nat) else none)
     (fun _ => false) "a" 5 (by decide)).2.1,
   (C6_supersede_frame.1 (fun k => if k = "a" then some (5 : Nat) else none)
     (fun _ => false) "a" 5 (by decide)).2.2.1 "b" (by decide),
   by decide,
   by decide,
   (C6_supersede_frame.2.2 "a" "b" false false (by decide)
     [false, true, false, true, false, true] Outcome.success).1 (by decide)⟩
